import Mathlib

/-!
Verification of the audio-transcription pipeline against its specification.

The definitions below are a shallow embedding of the repository code:
the Job Record (`Note` in `src/database/models.py`), the three Celery
stage executors (`download_audio`, `translate_audio_to_text`,
`generate_study_notes` in `src/workers/`), the Celery bounded-retry
wrapper (`autoretry_for` with `max_retries = 2`), and the API endpoints
(`create_notes_from_youtube`, `retry_note`, `regenerate_note` in
`src/api/__init__.py`).  The file system and the external providers are
modelled as explicit parameters (a `String → Bool` existence predicate,
and outcome values per attempt).  Python truthiness on optional strings
(`None` and `""` are falsy) is modelled by `optTruthy`.
-/

namespace AudioPipeline

/-! ### Decimal rendering of naturals (embeds Python `str(int)` and `f-string` padding) -/

/-- The character of a single decimal digit. -/
def digitChar (d : Nat) : Char := Char.ofNat (48 + d)

/-- Numeric value of a digit character. -/
def digitVal (c : Char) : Nat := c.toNat - 48

/-- Fuel-driven accumulator loop producing the decimal digits of `n`
(most significant first) in front of `acc`. -/
def natToDecAux : Nat → Nat → List Char → List Char
  | 0, _, acc => acc
  | fuel + 1, n, acc =>
    if n = 0 then acc else natToDecAux fuel (n / 10) (digitChar (n % 10) :: acc)

/-- Decimal rendering of a natural number, as Python `str` renders a
nonnegative `int`. -/
def natToDec (n : Nat) : String :=
  if n = 0 then "0" else ⟨natToDecAux n n []⟩

/-- Embeds the Python format `f"{n:02d}"` for a nonnegative int. -/
def pad2 (n : Nat) : String :=
  if n < 10 then "0" ++ natToDec n else natToDec n

/-- Numeric value of a digit string (as Python `int` would read it). -/
def digitsToNat (l : List Char) : Nat :=
  l.foldl (fun a c => 10 * a + digitVal c) 0

/-! ### The Job Record (`Note` model, `src/database/models.py`) -/

/-- The four values the `status` column takes in the code. -/
inductive JobStatus
  | pending
  | processing
  | completed
  | failed
deriving DecidableEq, Repr

/-- The persisted Job Record.  `created_at` is an abstract clock value
used only for the cache lookup ordering. -/
structure Note where
  id : Nat
  youtube_url : String
  task_id : Option String := none
  status : JobStatus := .pending
  audio_id : Option String := none
  audio_path : Option String := none
  error : Option String := none
  transcription : Option String := none
  note : Option String := none
  created_at : Nat := 0
deriving DecidableEq, Repr

/-- Python truthiness of an optional string: `None` and `""` are falsy. -/
def optTruthy : Option String → Bool
  | none => false
  | some s => !(s == "")

/-- Embeds `note.audio_path and Path(note.audio_path).exists()` from
`retry_note`; `fe` is the file-existence predicate of the external disk. -/
def audio_path_exists (note : Note) (fe : String → Bool) : Bool :=
  match note.audio_path with
  | some p => (!(p == "")) && fe p
  | none => false

/-! ### The Resume Planner (`retry_note` endpoint, `src/api/__init__.py`) -/

/-- The stage the retry endpoint (re)enters. -/
inductive EntryStage
  | noopCompleted
  | synthesize
  | transcribe
  | acquire
deriving DecidableEq, Repr

/-- Embeds the `retry_note` endpoint of `src/api/__init__.py` (lines
143-215) on a record that was found: returns the record as persisted at
the moment the stage task is dispatched, together with the entry stage
chosen.  The branches mirror the source: the completed no-op needs
`note.status == "completed" and note.note`; Synthesize needs the audio
file on disk and `note.transcription is not None`; Transcribe needs the
audio file on disk; otherwise the full chain restarts and the audio
fields are cleared. -/
def retry_note (note : Note) (fe : String → Bool) : Note × EntryStage :=
  if note.status == .completed && optTruthy note.note then
    (note, .noopCompleted)
  else
    let audio_exists := audio_path_exists note fe
    let transcription_exists := note.transcription.isSome
    if audio_exists && transcription_exists then
      ({ note with status := .processing, error := none }, .synthesize)
    else if audio_exists then
      ({ note with status := .processing, error := none }, .transcribe)
    else
      ({ note with status := .pending, error := none,
                   audio_path := none, audio_id := none }, .acquire)

/-- The Resume Planner table of claim C1, as amended to match the code:
the no-op row also requires `status = Completed`, and the Synthesize row
also requires the acquired audio to be present on disk. -/
def resumePlanSpec (note : Note) (fe : String → Bool) : EntryStage :=
  if note.status == .completed && optTruthy note.note then .noopCompleted
  else if audio_path_exists note fe && note.transcription.isSome then .synthesize
  else if audio_path_exists note fe then .transcribe
  else .acquire

/-! ### Stage executors and the Celery retry wrapper -/

/-- Result of one attempt of a Celery task body: a returned value, or a
raised exception carrying its message. -/
inductive AttemptOut (α : Type)
  | success (out : α)
  | raised (cause : String)
deriving DecidableEq, Repr

/-- Embeds Celery `autoretry_for=(Exception,)` with `max_retries` on a
task body `attempt` (a function of the current retry counter and the
record): re-invokes while attempts raise and retries remain, and returns
the final record, the number of attempts performed, and the last
outcome. -/
def celeryRun {α : Type} (attempt : Nat → Note → Note × AttemptOut α) :
    Nat → Nat → Note → Note × Nat × AttemptOut α
  | fuel, r, note =>
    match attempt r note with
    | (n', .success out) => (n', 1, .success out)
    | (n', .raised cause) =>
      match fuel with
      | 0 => (n', 1, .raised cause)
      | fuel + 1 =>
        let (n'', k, res) := celeryRun attempt fuel (r + 1) n'
        (n'', k + 1, res)

/-- The dictionary `download_audio` passes to `translate_audio_to_text`;
missing keys are `none`. -/
structure AudioDict where
  note_id : Nat
  audio_id : Option String := none
  audio_path : Option String := none
  youtube_link : Option String := none
  error : Option String := none
deriving DecidableEq, Repr

/-- The dictionary `translate_audio_to_text` passes to
`generate_study_notes`; missing keys are `none`. -/
structure TransDict where
  note_id : Nat
  audio_id : Option String := none
  audio_path : Option String := none
  transcription : Option String := none
  youtube_link : Option String := none
  error : Option String := none
deriving DecidableEq, Repr

/-- The dictionary `generate_study_notes` returns. -/
structure GenDict where
  note_id : Nat
  study_notes : Option String := none
  youtube_link : Option String := none
  error : Option String := none
deriving DecidableEq, Repr

/-- One attempt of `download_audio` (`src/workers/download_audio.py`) on
a record that was found.  `outcome` is `none` when the provider fetch
succeeds and `some cause` when it raises.  The body first persists
`status = "processing"`, then on success persists the audio fields; on
the final failed attempt (`retries >= 2`) it persists `Failed` with the
attempt-counting message. -/
def download_audio_attempt (youtube_link : String) (audio_id : String)
    (outcome : Option String) (r : Nat) (note : Note) :
    Note × AttemptOut AudioDict :=
  let n1 := { note with status := JobStatus.processing }
  match outcome with
  | none =>
    let path := "media/" ++ audio_id ++ ".mp3"
    ({ n1 with audio_id := some audio_id, audio_path := some path,
               status := .processing },
     .success { note_id := note.id, audio_id := some audio_id,
                audio_path := some path, youtube_link := some youtube_link })
  | some cause =>
    if r ≥ 2 then
      ({ n1 with status := .failed,
                 error := some ("Download failed after " ++ natToDec (r + 1)
                   ++ " attempts: " ++ cause) },
       .raised cause)
    else (n1, .raised cause)

/-- Outcome of the transcription provider call: the segment list plus
the plain-text fallback used when the segment list is empty, or a raised
error. -/
inductive TranscribeOutcome
  | result (segments : List (Nat × Nat × String)) (text : String)
  | failure (cause : String)
deriving DecidableEq, Repr

/-- Embeds `f"[{seg.start:.2f}s -> {seg.end:.2f}s] {seg.text}"` with the
segment times carried as exact hundredths of a second. -/
def fmt2 (c : Nat) : String := natToDec (c / 100) ++ "." ++ pad2 (c % 100)

/-- One serialized transcript line. -/
def serializeSegment (s e : Nat) (text : String) : String :=
  "[" ++ fmt2 s ++ "s -> " ++ fmt2 e ++ "s] " ++ text

/-- Python `sep.join` on character lists. -/
def joinSep (sep : Char) : List (List Char) → List Char
  | [] => []
  | [l] => l
  | l :: ls => l ++ sep :: joinSep sep ls

/-- The canonical transcript text: one serialized segment per line,
joined with a newline, as in `translate_audio_to_text` lines 64-70. -/
def serializeTranscript (segs : List (Nat × Nat × String)) : String :=
  ⟨joinSep '\n' (segs.map fun g => (serializeSegment g.1 g.2.1 g.2.2).data)⟩

/-- Embeds the precondition test of `translate_audio_to_text` lines 36:
`if not audio_path or not Path(audio_path).exists()` is the negation of
this. -/
def audioPathOk (ad : AudioDict) (fe : String → Bool) : Bool :=
  match ad.audio_path with
  | some p => (!(p == "")) && fe p
  | none => false

/-- One attempt of `translate_audio_to_text`
(`src/workers/translate_audio_to_text.py`) on a record that was found.
When the audio precondition fails the task returns a dictionary (no
exception, so no retry) after persisting only `status = "failed"`.  On
provider success it persists the canonical transcript and
`status = "processing"`.  On a provider exception the record is left
unchanged except on the final attempt (`retries >= 2`), which persists
`Failed` with the attempt-counting message. -/
def translate_attempt (ad : AudioDict) (fe : String → Bool)
    (outcome : TranscribeOutcome) (r : Nat) (note : Note) :
    Note × AttemptOut TransDict :=
  if audioPathOk ad fe = false then
    ({ note with status := .failed },
     .success { note_id := ad.note_id, audio_id := ad.audio_id,
                transcription := none,
                error := some (ad.error.getD "Audio file not found") })
  else
    match outcome with
    | .result segs text =>
      let transcription := if segs.isEmpty then text else serializeTranscript segs
      ({ note with transcription := some transcription, status := .processing },
       .success { note_id := ad.note_id, audio_id := ad.audio_id,
                  audio_path := ad.audio_path,
                  transcription := some transcription,
                  youtube_link := ad.youtube_link })
    | .failure cause =>
      (if r ≥ 2 then
        { note with status := .failed,
                    error := some ("Transcription failed after " ++ natToDec (r + 1)
                      ++ " attempts: " ++ cause) }
       else note,
       .raised cause)

/-! ### The timestamp rewrite (`add_youtube_timestamps` in
`src/workers/generate_study_notes.py`, lines 181-208)

The Python regex `\[(\d{1,2}):(\d{2})(?::(\d{2}))?\]` is embedded as an
explicit matcher at the head of a character list, with the same
backtracking behaviour (the one-or-two-digit first group and the
optional third group backtrack). -/

/-- Group 1, `(\d{1,2})` followed by the literal `:`: two digits then a
colon, else one digit then a colon. -/
def matchG1 : List Char → Option (Nat × List Char)
  | a :: rest =>
    if a.isDigit then
      match rest with
      | b :: rest2 =>
        if b.isDigit then
          match rest2 with
          | ':' :: r => some (10 * digitVal a + digitVal b, r)
          | _ => none
        else if b == ':' then some (digitVal a, rest2)
        else none
      | [] => none
    else none
  | [] => none

/-- Group 2, `(\d{2})`: exactly two digits. -/
def matchG2 : List Char → Option (Nat × List Char)
  | c :: d :: r =>
    if c.isDigit && d.isDigit then some (10 * digitVal c + digitVal d, r) else none
  | _ => none

/-- The tail `(?::(\d{2}))?\]`: either a closing bracket at once, or a
colon, two digits and the closing bracket. -/
def matchTail : List Char → Option (Option Nat × List Char)
  | ']' :: r => some (none, r)
  | ':' :: c :: d :: ']' :: r =>
    if c.isDigit && d.isDigit then some (some (10 * digitVal c + digitVal d), r)
    else none
  | _ => none

/-- Attempts the whole pattern at the head of the list, returning the
three group values and the remainder after the match. -/
def matchTsAt (cs : List Char) : Option (Nat × Nat × Option Nat × List Char) :=
  match cs with
  | '[' :: r => do
    let (g1, r1) ← matchG1 r
    let (g2, r2) ← matchG2 r1
    let (g3, r3) ← matchTail r2
    pure (g1, g2, g3, r3)
  | _ => none

/-- The replacement `replace_timestamp` builds: display time with
zero-padded minutes and seconds (hours unpadded) and total seconds
computed from the matched groups, rendered as a markdown link. -/
def replaceTimestamp (g1 g2 : Nat) (g3 : Option Nat) (url : String) : String :=
  match g3 with
  | some s3 =>
    "[" ++ natToDec g1 ++ ":" ++ pad2 g2 ++ ":" ++ pad2 s3 ++ "](" ++ url
      ++ "?t=" ++ natToDec (g1 * 3600 + g2 * 60 + s3) ++ ")"
  | none =>
    "[" ++ natToDec g1 ++ ":" ++ pad2 g2 ++ "](" ++ url
      ++ "?t=" ++ natToDec (g1 * 60 + g2) ++ ")"

/-- The `re.sub` left-to-right scan: at each position try the pattern;
on a match emit the replacement and continue after it, otherwise copy
one character.  Fuel-driven (fuel at least the length of the list). -/
def rewriteAux (url : String) : Nat → List Char → List Char
  | 0, cs => cs
  | _ + 1, [] => []
  | fuel + 1, c :: cs =>
    match matchTsAt (c :: cs) with
    | some (g1, g2, g3, rest) =>
      (replaceTimestamp g1 g2 g3 url).data ++ rewriteAux url fuel rest
    | none => c :: rewriteAux url fuel cs

/-- The scan at its natural fuel. -/
def rewriteChars (url : String) (cs : List Char) : List Char :=
  rewriteAux url cs.length cs

/-- Embeds `add_youtube_timestamps(markdown_text, youtube_url)`. -/
def add_youtube_timestamps (markdown_text : String) (youtube_url : String) : String :=
  ⟨rewriteChars youtube_url markdown_text.data⟩

/-- Embeds the guarded call site `if youtube_link: study_notes =
add_youtube_timestamps(study_notes, youtube_link)`: a falsy link
(`None` or `""`) leaves the notes unchanged. -/
def applyTimestampLinks (study_notes : String) (youtube_link : Option String) : String :=
  match youtube_link with
  | some u => if u == "" then study_notes else add_youtube_timestamps study_notes u
  | none => study_notes

/-! ### The Synthesize executor (`generate_study_notes`) -/

/-- The exception message raised when the provider response text is
empty: blocked content reports the block reason, otherwise the empty
response message (lines 169-175). -/
def genBlockCause (blockReason : Option String) : String :=
  match blockReason with
  | some b => "Content generation blocked: " ++ b
  | none => "Empty response from Gemini API"

/-- One attempt of `generate_study_notes`
(`src/workers/generate_study_notes.py`) on a record that was found.
`respText` is the provider response text and `blockReason` the optional
content-safety block reason.  A falsy `transcription` in the input
dictionary persists `Failed` with an error and returns (no exception).
An empty response raises; the final attempt (`retries >= 2`) persists
`Failed` with the attempt-counting message.  On success the response is
post-processed with the timestamp rewrite when the link is truthy, and
the record is persisted `Completed` with the notes. -/
def generate_attempt (td : TransDict) (respText : String)
    (blockReason : Option String) (r : Nat) (note : Note) :
    Note × AttemptOut GenDict :=
  if !(optTruthy td.transcription) then
    let msg := td.error.getD "Transcription not found"
    ({ note with status := .failed, error := some msg },
     .success { note_id := td.note_id, study_notes := none, error := some msg })
  else if respText == "" then
    let cause := genBlockCause blockReason
    (if r ≥ 2 then
      { note with status := .failed,
                  error := some ("Study notes generation failed after "
                    ++ natToDec (r + 1) ++ " attempts: " ++ cause) }
     else note,
     .raised cause)
  else
    let study_notes := applyTimestampLinks respText td.youtube_link
    ({ note with note := some study_notes, status := .completed },
     .success { note_id := td.note_id, study_notes := some study_notes,
                youtube_link := td.youtube_link })

/-! ### The intake endpoint and its cache lookup
(`create_notes_from_youtube`, `src/api/__init__.py` lines 37-82) -/

/-- `order_by(created_at.desc()).first()`: the matching record with the
greatest `created_at`, preferring the earlier row on ties. -/
def maxByCreated : List Note → Option Note
  | [] => none
  | n :: ns =>
    match maxByCreated ns with
    | none => some n
    | some m => if m.created_at > n.created_at then some m else some n

/-- The cache query: same url, `status == "completed"`, `note IS NOT
NULL`, most recently created first. -/
def cacheLookup (db : List Note) (url : String) : Option Note :=
  maxByCreated (db.filter fun n =>
    n.youtube_url == url && n.status == .completed && n.note.isSome)

/-- The HTTP response model (`ImportResponseModel`). -/
structure ImportResponse where
  status : JobStatus
  import_id : String
deriving DecidableEq, Repr

/-- What the intake endpoint enqueues: the full three-stage chain, or
nothing on a cache hit. -/
inductive Dispatch
  | fullChain (url : String) (note_id : Nat)
deriving DecidableEq, Repr

/-- Embeds `create_notes_from_youtube`: run the cache query, always
create a fresh pending record, and either clone the cached fields and
report `Completed` with no task, or enqueue the full chain and report
`Pending` with the task id.  The clone requires the cached `note` field
to be truthy (`if existing_note and existing_note.note:`). -/
def create_notes_from_youtube (db : List Note) (url : String)
    (newId : Nat) (now : Nat) (taskId : String) :
    List Note × ImportResponse × Option Dispatch :=
  let existing := cacheLookup db url
  let base : Note := { id := newId, youtube_url := url, status := .pending,
                       created_at := now }
  match existing with
  | some ex =>
    if optTruthy ex.note then
      let cloned := { base with transcription := ex.transcription,
                                note := ex.note, status := .completed,
                                audio_path := ex.audio_path,
                                audio_id := ex.audio_id }
      (db ++ [cloned], ⟨.completed, natToDec newId⟩, none)
    else
      (db ++ [{ base with task_id := some taskId }],
       ⟨.pending, taskId⟩, some (.fullChain url newId))
  | none =>
      (db ++ [{ base with task_id := some taskId }],
       ⟨.pending, taskId⟩, some (.fullChain url newId))

/-! ### The regenerate endpoint (`regenerate_note`, lines 255-290) -/

/-- Result of the regenerate endpoint. -/
inductive RegenerateResult
  | badRequest
  | alreadyCompleted (resp : ImportResponse)
  | dispatched (resp : ImportResponse) (td : TransDict)
deriving DecidableEq, Repr

/-- Embeds `regenerate_note` on a record that was found: 400 without a
truthy transcription; success response when the notes are already
present; otherwise the record passes through a transient
`Failed`-with-null-error commit, the generation task is dispatched with
the record transcription, and the record is persisted `Processing` with
the task id. -/
def regenerate_note (note : Note) (taskId : String) : Note × RegenerateResult :=
  if !(optTruthy note.transcription) then (note, .badRequest)
  else if optTruthy note.note then
    (note, .alreadyCompleted ⟨.completed, natToDec note.id⟩)
  else
    let td : TransDict := { note_id := note.id,
                            transcription := note.transcription,
                            youtube_link := some note.youtube_url }
    ({ note with status := .processing, error := none, task_id := some taskId },
     .dispatched ⟨.pending, taskId⟩ td)

/-! ### The transcript line grammar of Synthesize
(`generate_study_notes.py` lines 56-67)

The Python regex `\[(\d+\.?\d*)s\s*->\s*(\d+\.?\d*)s\]\s*(.+)` applied
with `re.match` to each line of `transcription.split("\n")`, the two
numeric groups read with `float`, and the text group stripped.  Numbers
are represented exactly as rationals. -/

/-- Python `\s` on the ASCII range: space, tab, newline, carriage
return, vertical tab, form feed. -/
def isPySpace (c : Char) : Bool :=
  c == ' ' || c == '\t' || c == '\n' || c == '\r' || c == '\x0b' || c == '\x0c'

/-- Python `str.strip()`: drop whitespace from both ends. -/
def pyStrip (l : List Char) : List Char :=
  ((l.dropWhile isPySpace).reverse.dropWhile isPySpace).reverse

/-- `str.strip()` on strings. -/
def pyStripStr (s : String) : String := ⟨pyStrip s.data⟩

/-- Python `str.split(sep)` for a one-character separator: splitting
the empty string yields one empty field. -/
def splitOnChar (sep : Char) : List Char → List (List Char)
  | [] => [[]]
  | c :: cs =>
    if c == sep then [] :: splitOnChar sep cs
    else
      match splitOnChar sep cs with
      | h :: t => (c :: h) :: t
      | [] => [[c]]

/-- The numeric group `(\d+\.?\d*)`: one or more digits, an optional
dot, zero or more digits; the value is what Python `float` reads from
the matched text. -/
def matchNumber (cs : List Char) : Option (ℚ × List Char) :=
  let ds := cs.takeWhile fun c => c.isDigit
  let r := cs.dropWhile fun c => c.isDigit
  if ds.isEmpty then none
  else
    match r with
    | '.' :: r2 =>
      let fs := r2.takeWhile fun c => c.isDigit
      let r3 := r2.dropWhile fun c => c.isDigit
      some ((digitsToNat ds : ℚ) + (digitsToNat fs : ℚ) / ((10 : ℚ) ^ fs.length), r3)
    | _ => some ((digitsToNat ds : ℚ), r)

/-- Consume one expected literal character. -/
def expectChar (c : Char) : List Char → Option (List Char)
  | x :: r => if x == c then some r else none
  | [] => none

/-- Consume the literal arrow `->`. -/
def matchArrow : List Char → Option (List Char)
  | '-' :: '>' :: r => some r
  | _ => none

/-- The trailing `\s*(.+)` with its backtracking: `k` counts how much
whitespace the greedy `\s*` still claims; the group is the maximal
newline-free run from the first position whose head is not a newline. -/
def textGroupAux (r9 : List Char) : Nat → Option (List Char)
  | 0 =>
    match r9.drop 0 with
    | c :: rest =>
      if c == '\n' then none
      else some ((c :: rest).takeWhile fun x => !(x == '\n'))
    | [] => none
  | k + 1 =>
    match r9.drop (k + 1) with
    | c :: rest =>
      if c == '\n' then textGroupAux r9 k
      else some ((c :: rest).takeWhile fun x => !(x == '\n'))
    | [] => textGroupAux r9 k

/-- `\s*(.+)` starting with the greedy whitespace claim. -/
def matchTextGroup (r9 : List Char) : Option (List Char) :=
  textGroupAux r9 (r9.takeWhile isPySpace).length

/-- `re.match` of the full line pattern, returning the two times and
the stripped text, or `none` for a line that is silently dropped. -/
def parseLineChars (cs : List Char) : Option (ℚ × ℚ × String) :=
  match cs with
  | '[' :: r => do
    let (s, r1) ← matchNumber r
    let r2 ← expectChar 's' r1
    let r3 := r2.dropWhile isPySpace
    let r4 ← matchArrow r3
    let r5 := r4.dropWhile isPySpace
    let (e, r6) ← matchNumber r5
    let r7 ← expectChar 's' r6
    let r8 ← expectChar ']' r7
    let g ← matchTextGroup r8
    pure (s, e, (⟨pyStrip g⟩ : String))
  | _ => none

/-- The segment extraction loop of `generate_study_notes` lines 58-67:
split on newlines, keep the matching lines. -/
def parseTranscription (transcription : String) : List (ℚ × ℚ × String) :=
  (splitOnChar '\n' transcription.data).filterMap parseLineChars

/-! ### A concrete reachable run for claim C3

The pipeline runs normally through Acquire and Transcribe, Synthesize
exhausts its retries, the audio file then vanishes from disk, the retry
endpoint resumes (its Acquire branch clears the audio columns but keeps
the transcription), and the regenerate endpoint — which only checks the
transcription — completes the job while `audio_path` is still null. -/

/-- Extract the returned dictionary of a successful attempt. -/
def attemptOut {α : Type} (d : α) : AttemptOut α → α
  | .success out => out
  | .raised _ => d

def c3Url : String := "https://v/1"

def c3Step0 : Note := { id := 1, youtube_url := c3Url }

def c3Dl : Note × AttemptOut AudioDict :=
  download_audio_attempt c3Url "aid" none 0 c3Step0

def c3Tr : Note × AttemptOut TransDict :=
  translate_attempt (attemptOut { note_id := 0 } c3Dl.2) (fun _ => true)
    (.result [(0, 100, "hello")] "") 0 c3Dl.1

/-- Synthesize fails every attempt and exhausts its retry budget. -/
def c3Fail : Note :=
  (celeryRun (generate_attempt { note_id := 1,
                                 transcription := (attemptOut { note_id := 0 } c3Tr.2).transcription,
                                 youtube_link := some c3Url } "" none) 2 0 c3Tr.1).1

/-- The retry endpoint runs while the audio file is missing on disk. -/
def c3Retried : Note × EntryStage := retry_note c3Fail (fun _ => false)

def c3Regen : Note × RegenerateResult := regenerate_note c3Retried.1 "t2"

/-- The dictionary the regenerate endpoint dispatched. -/
def c3Td : TransDict :=
  match c3Regen.2 with
  | .dispatched _ td => td
  | _ => { note_id := 0 }

/-- Synthesize now succeeds. -/
def c3Final : Note := (generate_attempt c3Td "STUDY NOTES" none 0 c3Regen.1).1

/-! ## Theorems -/

/-- C1 (counterexample): the planner table of the claim fails on the
code in two overlapping rows.  A record with `result_notes` present but
status `Failed` (and audio and transcript available) enters Synthesize,
not the claimed no-op; and a record with transcript present,
`result_notes` absent but no acquired audio enters Acquire, not the
claimed Synthesize. -/
theorem retry_planner_claim_false :
    ((retry_note { id := 1, youtube_url := "u", status := .failed,
                   audio_path := some "a", transcription := some "t", note := some "n",
                   error := some "e" } (fun _ => true)).2 = .synthesize
      ∧ EntryStage.synthesize ≠ .noopCompleted)
    ∧ ((retry_note { id := 2, youtube_url := "u", status := .failed,
                     transcription := some "t", error := some "e" } (fun _ => false)).2 = .acquire
      ∧ EntryStage.acquire ≠ .synthesize) := by
  decide

/-- C1 (amended): the entry stage of the retry endpoint is determined
exactly by the table with the no-op row requiring `status = Completed`
and a non-empty `result_notes`, the Synthesize row requiring the audio
file on disk as well as the transcript, the Transcribe row requiring the
audio file on disk with transcript absent, and Acquire otherwise.  In
particular a record whose acquired audio exists on disk and whose
transcript is null never enters Acquire. -/
theorem retry_planner_amended : ∀ (note : Note) (fe : String → Bool),
    (retry_note note fe).2 = resumePlanSpec note fe
    ∧ (audio_path_exists note fe = true → note.transcription = none →
        (retry_note note fe).2 ≠ .acquire) := by
  intro note fe
  constructor
  · unfold retry_note resumePlanSpec
    repeat' split <;> simp_all
  · intro ha ht
    unfold retry_note
    simp [ha, ht]
    repeat' split <;> simp_all

/-- Witness for C1 at a concrete record. -/
theorem retry_planner_amended_witness :
    ((retry_note { id := 3, youtube_url := "u", status := .failed,
                   audio_path := some "a", error := some "e" } (fun _ => true)).2 =
      resumePlanSpec { id := 3, youtube_url := "u", status := .failed,
                       audio_path := some "a", error := some "e" } (fun _ => true))
    ∧ (retry_note { id := 3, youtube_url := "u", status := .failed,
                    audio_path := some "a", error := some "e" } (fun _ => true)).2 ≠ .acquire :=
  ⟨(retry_planner_amended _ _).1, (retry_planner_amended _ _).2 (by decide) rfl⟩

/-- C9 (counterexample): a Failed record with no acquired audio resumes
through the Acquire branch of `retry_note`, which persists status
`pending`, not `Processing` as claimed. -/
theorem resume_status_claim_false :
    (retry_note { id := 1, youtube_url := "u", status := .failed,
                  transcription := some "t", error := some "boom" } (fun _ => false)).1.status
      = .pending
    ∧ JobStatus.pending ≠ .processing := by
  decide

/-- C9 (amended): for every Failed record, the retry endpoint clears
`last_error` in every branch it can take, and sets status `Processing`
in the Synthesize and Transcribe branches but `Pending` in the Acquire
branch; the completed no-op branch is unreachable from `Failed`. -/
theorem resume_clears_error_amended : ∀ (note : Note) (fe : String → Bool),
    note.status = .failed →
    (retry_note note fe).2 ≠ .noopCompleted
    ∧ (retry_note note fe).1.error = none
    ∧ ((retry_note note fe).2 = .synthesize ∨ (retry_note note fe).2 = .transcribe →
        (retry_note note fe).1.status = .processing)
    ∧ ((retry_note note fe).2 = .acquire → (retry_note note fe).1.status = .pending) := by
  intro note fe h
  unfold retry_note
  simp [h]
  repeat' split <;> simp_all

/-- Witness for C9 at a concrete Failed record. -/
theorem resume_clears_error_amended_witness :
    (retry_note { id := 4, youtube_url := "u", status := .failed,
                  error := some "boom" } (fun _ => false)).1.error = none :=
  (resume_clears_error_amended _ (fun _ => false) rfl).2.1

/-- C6: when the acquired media path is falsy or the file is missing on
disk, one run of the Transcribe task performs exactly one attempt, raises
nothing to the retry mechanism, persists `status = Failed`, and returns a
null transcription with an error description. -/
theorem transcribe_missing_audio_nonretryable :
    ∀ (ad : AudioDict) (fe : String → Bool) (oc : Nat → TranscribeOutcome) (note : Note),
      audioPathOk ad fe = false →
      celeryRun (fun r n => translate_attempt ad fe (oc r) r n) 2 0 note =
        ({ note with status := .failed }, 1,
         .success { note_id := ad.note_id, audio_id := ad.audio_id,
                    transcription := none,
                    error := some (ad.error.getD "Audio file not found") }) := by
  intro ad fe oc note h
  simp [celeryRun, translate_attempt, h]

/-- Witness for C6 at a concrete record and dictionary. -/
theorem transcribe_missing_audio_nonretryable_witness :
    celeryRun (fun r n => translate_attempt { note_id := 7, audio_path := some "gone.mp3" }
        (fun _ => false) (.failure "irrelevant") r n) 2 0
        { id := 7, youtube_url := "u", status := .processing } =
      ({ id := 7, youtube_url := "u", status := .failed }, 1,
       .success { note_id := 7, audio_id := none, transcription := none,
                  error := some "Audio file not found" }) :=
  transcribe_missing_audio_nonretryable { note_id := 7, audio_path := some "gone.mp3" }
    (fun _ => false) (fun _ => .failure "irrelevant")
    { id := 7, youtube_url := "u", status := .processing } (by decide)

/-- C8 (code evaluated at the failing input): the audio-precondition
branch of the Transcribe task persists `status = Failed` without setting
`last_error`; on a record whose `error` column is null (as the retry
endpoint leaves it) the persisted record violates the invariant
`Failed implies last_error non-null`. -/
theorem failed_without_error_violation :
    (translate_attempt { note_id := 2, audio_id := some "A", audio_path := some "media/x.mp3" }
       (fun _ => false) (.failure "net") 0
       { id := 2, youtube_url := "u", status := .processing,
         audio_id := some "A", audio_path := some "media/x.mp3" }).1.status = .failed
    ∧ (translate_attempt { note_id := 2, audio_id := some "A", audio_path := some "media/x.mp3" }
       (fun _ => false) (.failure "net") 0
       { id := 2, youtube_url := "u", status := .processing,
         audio_id := some "A", audio_path := some "media/x.mp3" }).1.error = none := by
  decide

/-- C3 (code evaluated at the failing run): after the concrete reachable
sequence acquire, transcribe, synthesize-exhausted, resume with the
audio file missing, regenerate, synthesize-success, the persisted record
is `Completed` with non-null notes and transcription but a null
`acquired_media_location`, violating the claimed invariant. -/
theorem completed_invariant_violation :
    c3Retried.2 = .acquire
    ∧ c3Final.status = .completed
    ∧ c3Final.note.isSome = true
    ∧ c3Final.transcription.isSome = true
    ∧ c3Final.audio_path = none := by
  decide

/-- C2: a stage executor that fails with a retryable error on every
attempt drives the record to `Failed` after exactly 3 attempts (1
initial + 2 retries), with `last_error` a message containing the attempt
count rendered as "3" and the final underlying cause — for each of the
three stage tasks (Acquire, Transcribe past its precondition, Synthesize
with a truthy transcription input). -/
theorem retry_exhaustion_three_attempts :
    (∀ (note : Note) (link aid : String) (cause : Nat → String),
      celeryRun (fun r n => download_audio_attempt link aid (some (cause r)) r n) 2 0 note =
        ({ note with status := .failed,
                     error := some ("Download failed after " ++ natToDec 3
                       ++ " attempts: " ++ cause 2) },
         3, .raised (cause 2)))
    ∧ (∀ (ad : AudioDict) (fe : String → Bool) (note : Note) (cause : Nat → String),
      audioPathOk ad fe = true →
      celeryRun (fun r n => translate_attempt ad fe (.failure (cause r)) r n) 2 0 note =
        ({ note with status := .failed,
                     error := some ("Transcription failed after " ++ natToDec 3
                       ++ " attempts: " ++ cause 2) },
         3, .raised (cause 2)))
    ∧ (∀ (td : TransDict) (br : Nat → Option String) (note : Note),
      optTruthy td.transcription = true →
      celeryRun (fun r n => generate_attempt td "" (br r) r n) 2 0 note =
        ({ note with status := .failed,
                     error := some ("Study notes generation failed after " ++ natToDec 3
                       ++ " attempts: " ++ genBlockCause (br 2)) },
         3, .raised (genBlockCause (br 2))))
    ∧ natToDec 3 = "3" := by
  refine ⟨?_, ?_, ?_, rfl⟩
  · intro note link aid cause
    simp [celeryRun, download_audio_attempt]
  · intro ad fe note cause h
    simp [celeryRun, translate_attempt, h]
  · intro td br note h
    simp [celeryRun, generate_attempt, h]

/-- Witness for C2 at concrete inputs for all three stages. -/
theorem retry_exhaustion_three_attempts_witness :
    (celeryRun (fun r n => download_audio_attempt "u" "a" (some "boom") r n) 2 0
        { id := 1, youtube_url := "u" } =
      ({ id := 1, youtube_url := "u", status := .failed,
         error := some ("Download failed after " ++ natToDec 3 ++ " attempts: boom") },
       3, .raised "boom"))
    ∧ (celeryRun (fun r n => translate_attempt { note_id := 1, audio_path := some "p" }
          (fun _ => true) (.failure "io") r n) 2 0 { id := 1, youtube_url := "u" } =
      ({ id := 1, youtube_url := "u", status := .failed,
         error := some ("Transcription failed after " ++ natToDec 3 ++ " attempts: io") },
       3, .raised "io"))
    ∧ (celeryRun (fun r n => generate_attempt { note_id := 1, transcription := some "t" }
          "" none r n) 2 0 { id := 1, youtube_url := "u" } =
      ({ id := 1, youtube_url := "u", status := .failed,
         error := some ("Study notes generation failed after " ++ natToDec 3
           ++ " attempts: " ++ genBlockCause none) },
       3, .raised (genBlockCause none))) :=
  ⟨retry_exhaustion_three_attempts.1 { id := 1, youtube_url := "u" } "u" "a" (fun _ => "boom"),
   retry_exhaustion_three_attempts.2.1 { note_id := 1, audio_path := some "p" }
     (fun _ => true) { id := 1, youtube_url := "u" } (fun _ => "io") (by decide),
   retry_exhaustion_three_attempts.2.2.1 { note_id := 1, transcription := some "t" }
     (fun _ => none) { id := 1, youtube_url := "u" } (by decide)⟩

/-- A nonempty maximum-selection never returns `none`. -/
theorem maxByCreated_eq_none : ∀ {l : List Note}, maxByCreated l = none → l = [] := by
  intro l h
  cases l with
  | nil => rfl
  | cons n ns =>
    unfold maxByCreated at h
    cases hm : maxByCreated ns <;> simp [hm] at h
    split at h <;> simp_all

/-- The selected record is a member of the list. -/
theorem maxByCreated_mem : ∀ {l : List Note} {m : Note}, maxByCreated l = some m → m ∈ l := by
  intro l
  induction l with
  | nil => intro m h; simp [maxByCreated] at h
  | cons n ns ih =>
    intro m h
    rw [maxByCreated] at h
    cases hm : maxByCreated ns with
    | none => rw [hm] at h; simp at h; simp [h]
    | some m' =>
      rw [hm] at h
      dsimp only at h
      split at h
      · simp at h
        subst h
        exact List.mem_cons_of_mem n (ih hm)
      · simp at h
        simp [h]

/-- The selected record has the greatest creation time in the list. -/
theorem maxByCreated_ge : ∀ {l : List Note} {m : Note}, maxByCreated l = some m →
    ∀ o ∈ l, o.created_at ≤ m.created_at := by
  intro l
  induction l with
  | nil => intro m h; simp [maxByCreated] at h
  | cons n ns ih =>
    intro m h o ho
    rw [maxByCreated] at h
    cases hm : maxByCreated ns with
    | none =>
      rw [hm] at h
      simp at h
      subst h
      rcases List.mem_cons.mp ho with rfl | ho'
      · exact le_refl _
      · rw [maxByCreated_eq_none hm] at ho'
        simp at ho'
    | some m' =>
      rw [hm] at h
      dsimp only at h
      split at h
      next hlt =>
        simp at h
        subst h
        rcases List.mem_cons.mp ho with rfl | ho'
        · omega
        · exact ih hm o ho'
      next hlt =>
        simp at h
        subst h
        rcases List.mem_cons.mp ho with rfl | ho'
        · exact le_refl _
        · have := ih hm o ho'
          omega

/-- C7 (counterexample): a record with `status = Completed` and non-null
`result_notes` equal to the empty string is found by the cache query but
fails the truthiness test `if existing_note and existing_note.note:`, so
the intake endpoint enqueues the full chain and reports `Pending`
instead of cloning and reporting `Completed`. -/
theorem cache_hit_claim_false :
    (create_notes_from_youtube
        [{ id := 1, youtube_url := "https://v/1", status := .completed, note := some "",
           transcription := some "T", audio_path := some "P", audio_id := some "A",
           created_at := 5 }]
        "https://v/1" 2 9 "tk").2 =
      (⟨.pending, "tk"⟩, some (.fullChain "https://v/1" 2))
    ∧ JobStatus.pending ≠ .completed := by
  decide

/-- C7 (amended): when the cache query — which selects, among records
with the submitted source reference, `status = Completed` and non-null
`result_notes`, one with the greatest creation time — returns a record
whose `result_notes` is moreover non-empty, the intake endpoint appends
a fresh record cloning `transcript`, `result_notes`,
`acquired_media_location` and `acquired_media_id`, sets it `Completed`
immediately, reports `Completed`, and enqueues no stage task. -/
theorem cache_hit_amended : ∀ (db : List Note) (url : String) (newId now : Nat)
    (taskId : String) (ex : Note),
    cacheLookup db url = some ex → optTruthy ex.note = true →
    (create_notes_from_youtube db url newId now taskId =
      (db ++ [{ id := newId, youtube_url := url, status := .completed,
                created_at := now, transcription := ex.transcription,
                note := ex.note, audio_path := ex.audio_path,
                audio_id := ex.audio_id }],
       ⟨.completed, natToDec newId⟩, none))
    ∧ ex ∈ db ∧ ex.youtube_url = url ∧ ex.status = .completed ∧ ex.note.isSome = true
    ∧ ∀ o ∈ db, o.youtube_url = url → o.status = .completed → o.note.isSome = true →
        o.created_at ≤ ex.created_at := by
  intro db url newId now taskId ex h htruthy
  have hmem := maxByCreated_mem h
  have hprops := List.mem_filter.mp hmem
  have hge := maxByCreated_ge h
  refine ⟨?_, hprops.1, ?_, ?_, ?_, ?_⟩
  · unfold create_notes_from_youtube
    rw [h]
    simp [htruthy]
  · have := hprops.2; simp at this; exact this.1.1
  · have := hprops.2; simp at this; exact this.1.2
  · have := hprops.2; simp at this; exact this.2
  · intro o ho hu hs hn
    exact hge o (List.mem_filter.mpr ⟨ho, by simp [hu, hs, hn]⟩)

/-- Witness for C7 at a concrete one-record database. -/
theorem cache_hit_amended_witness :
    create_notes_from_youtube
        [{ id := 1, youtube_url := "https://v/1", status := .completed, note := some "N",
           transcription := some "T", audio_path := some "P", audio_id := some "A",
           created_at := 5 }]
        "https://v/1" 2 9 "tk" =
      ([{ id := 1, youtube_url := "https://v/1", status := .completed, note := some "N",
          transcription := some "T", audio_path := some "P", audio_id := some "A",
          created_at := 5 },
        { id := 2, youtube_url := "https://v/1", status := .completed, created_at := 9,
          transcription := some "T", note := some "N", audio_path := some "P",
          audio_id := some "A" }],
       ⟨.completed, natToDec 2⟩, none) :=
  (cache_hit_amended
    [{ id := 1, youtube_url := "https://v/1", status := .completed, note := some "N",
       transcription := some "T", audio_path := some "P", audio_id := some "A",
       created_at := 5 }]
    "https://v/1" 2 9 "tk"
    { id := 1, youtube_url := "https://v/1", status := .completed, note := some "N",
      transcription := some "T", audio_path := some "P", audio_id := some "A",
      created_at := 5 }
    (by decide) (by decide)).1

/-! ### Digit and decimal-rendering lemmas -/

theorem digitChar_isDigit {d : Nat} (h : d < 10) : (digitChar d).isDigit = true := by
  interval_cases d <;> decide

theorem digitVal_digitChar {d : Nat} (h : d < 10) : digitVal (digitChar d) = d := by
  interval_cases d <;> decide

theorem natToDec_data_one {m : Nat} (h : m < 10) : (natToDec m).data = [digitChar m] := by
  interval_cases m <;> decide

theorem natToDec_data_two {m : Nat} (h1 : 10 ≤ m) (h2 : m < 100) :
    (natToDec m).data = [digitChar (m / 10), digitChar (m % 10)] := by
  interval_cases m <;> decide

theorem pad2_data {m : Nat} (h : m < 100) :
    (pad2 m).data = [digitChar (m / 10), digitChar (m % 10)] := by
  interval_cases m <;> decide

theorem strDataAppend (a b : String) : (a ++ b).data = a.data ++ b.data := rfl

theorem strMkData (s : String) : (⟨s.data⟩ : String) = s := rfl

/-! ### Matching lemmas for the timestamp pattern -/

theorem matchG1_one {a : Nat} (h : a < 10) (r : List Char) :
    matchG1 (digitChar a :: ':' :: r) = some (a, r) := by
  have hc : (':' : Char).isDigit = false := by decide
  simp [matchG1, digitChar_isDigit h, digitVal_digitChar h, hc]

theorem matchG1_two {a b : Nat} (ha : a < 10) (hb : b < 10) (r : List Char) :
    matchG1 (digitChar a :: digitChar b :: ':' :: r) = some (10 * a + b, r) := by
  simp [matchG1, digitChar_isDigit ha, digitChar_isDigit hb,
        digitVal_digitChar ha, digitVal_digitChar hb]

theorem matchG2_two {a b : Nat} (ha : a < 10) (hb : b < 10) (r : List Char) :
    matchG2 (digitChar a :: digitChar b :: r) = some (10 * a + b, r) := by
  simp [matchG2, digitChar_isDigit ha, digitChar_isDigit hb,
        digitVal_digitChar ha, digitVal_digitChar hb]

theorem matchTail_close (r : List Char) : matchTail (']' :: r) = some (none, r) := rfl

theorem matchTail_ext {a b : Nat} (ha : a < 10) (hb : b < 10) (r : List Char) :
    matchTail (':' :: digitChar a :: digitChar b :: ']' :: r) = some (some (10 * a + b), r) := by
  simp [matchTail, digitChar_isDigit ha, digitChar_isDigit hb,
        digitVal_digitChar ha, digitVal_digitChar hb]

theorem rewriteAux_nil (url : String) (f : Nat) : rewriteAux url f [] = [] := by
  cases f <;> rfl

/-- A whole-string match rewrites to exactly the replacement. -/
theorem rewrite_single (url : String) (cs : List Char) (g1 g2 : Nat) (g3 : Option Nat)
    (h : matchTsAt cs = some (g1, g2, g3, [])) :
    rewriteChars url cs = (replaceTimestamp g1 g2 g3 url).data := by
  cases cs with
  | nil => simp [matchTsAt] at h
  | cons c cs' =>
    simp [rewriteChars, rewriteAux, h, rewriteAux_nil]

/-- C4 (counterexample): on source `https://x/y` the marker `[1:02:03]`
rewrites with a zero-padded minutes display, not to the
`[1:2:03](https://x/y?t=3723)` the claim states. -/
theorem timestamp_rewrite_claim_false :
    add_youtube_timestamps "[1:02:03]" "https://x/y" ≠ "[1:2:03](https://x/y?t=3723)" := by
  decide

/-- C4 (amended): every marker `[MM:SS]` (minutes written with one or
two digits) rewrites to `[M:SS](source?t=M*60+S)` with the minutes
displayed unpadded and the seconds zero-padded, and every
`[H:MM:SS]`/`[HH:MM:SS]` rewrites to
`[H:MM:SS](source?t=H*3600+M*60+S)` with hours unpadded and minutes and
seconds zero-padded; in particular `[12:34]` on `https://x/y` gives
`[12:34](https://x/y?t=754)` and `[1:02:03]` gives
`[1:02:03](https://x/y?t=3723)`. -/
theorem timestamp_rewrite_amended :
    (∀ (url g1s : String) (m s : Nat), m < 100 → s < 100 →
      (g1s = natToDec m ∨ g1s = pad2 m) →
      add_youtube_timestamps ("[" ++ g1s ++ ":" ++ pad2 s ++ "]") url =
        "[" ++ natToDec m ++ ":" ++ pad2 s ++ "](" ++ url ++ "?t="
          ++ natToDec (m * 60 + s) ++ ")")
    ∧ (∀ (url hstr : String) (hh m s : Nat), hh < 100 → m < 100 → s < 100 →
      (hstr = natToDec hh ∨ hstr = pad2 hh) →
      add_youtube_timestamps ("[" ++ hstr ++ ":" ++ pad2 m ++ ":" ++ pad2 s ++ "]") url =
        "[" ++ natToDec hh ++ ":" ++ pad2 m ++ ":" ++ pad2 s ++ "](" ++ url ++ "?t="
          ++ natToDec (hh * 3600 + m * 60 + s) ++ ")")
    ∧ add_youtube_timestamps "[12:34]" "https://x/y" = "[12:34](https://x/y?t=754)"
    ∧ add_youtube_timestamps "[1:02:03]" "https://x/y" = "[1:02:03](https://x/y?t=3723)" := by
  have c1 : ("[" : String).data = ['['] := rfl
  have c2 : (":" : String).data = [':'] := rfl
  have c3 : ("]" : String).data = [']'] := rfl
  refine ⟨?_, ?_, by decide, by decide⟩
  · intro url g1s m s hm hs hg
    have hsd : (pad2 s).data = [digitChar (s / 10), digitChar (s % 10)] := pad2_data hs
    have ds1 : s / 10 < 10 := by omega
    have ds2 : s % 10 < 10 := by omega
    have hdm : 10 * (s / 10) + s % 10 = s := Nat.div_add_mod s 10
    have hA : (g1s.data = [digitChar m] ∧ m < 10)
        ∨ g1s.data = [digitChar (m / 10), digitChar (m % 10)] := by
      rcases hg with rfl | rfl
      · rcases Nat.lt_or_ge m 10 with h10 | h10
        · exact Or.inl ⟨natToDec_data_one h10, h10⟩
        · exact Or.inr (natToDec_data_two h10 hm)
      · exact Or.inr (pad2_data hm)
    show (⟨rewriteChars url ("[" ++ g1s ++ ":" ++ pad2 s ++ "]").data⟩ : String) = _
    rcases hA with ⟨hA1, h10⟩ | hA2
    · have hud : ("[" ++ g1s ++ ":" ++ pad2 s ++ "]").data
          = '[' :: digitChar m :: ':' :: digitChar (s / 10) :: digitChar (s % 10)
              :: ']' :: [] := by
        simp [strDataAppend, hA1, hsd, c1, c2, c3]
      have hts : matchTsAt ('[' :: digitChar m :: ':' :: digitChar (s / 10)
          :: digitChar (s % 10) :: ']' :: []) = some (m, s, none, []) := by
        simp [matchTsAt, matchG1_one h10, matchG2_two ds1 ds2, matchTail_close, hdm]
      rw [hud, rewrite_single url _ m s none hts]
      exact strMkData _
    · have dm1 : m / 10 < 10 := by omega
      have dm2 : m % 10 < 10 := by omega
      have hdm' : 10 * (m / 10) + m % 10 = m := Nat.div_add_mod m 10
      have hud : ("[" ++ g1s ++ ":" ++ pad2 s ++ "]").data
          = '[' :: digitChar (m / 10) :: digitChar (m % 10) :: ':'
              :: digitChar (s / 10) :: digitChar (s % 10) :: ']' :: [] := by
        simp [strDataAppend, hA2, hsd, c1, c2, c3]
      have hts : matchTsAt ('[' :: digitChar (m / 10) :: digitChar (m % 10) :: ':'
          :: digitChar (s / 10) :: digitChar (s % 10) :: ']' :: [])
          = some (m, s, none, []) := by
        simp [matchTsAt, matchG1_two dm1 dm2, matchG2_two ds1 ds2, matchTail_close,
              hdm, hdm']
      rw [hud, rewrite_single url _ m s none hts]
      exact strMkData _
  · intro url hstr hh m s hhh hm hs hg
    have hmd : (pad2 m).data = [digitChar (m / 10), digitChar (m % 10)] := pad2_data hm
    have hsd : (pad2 s).data = [digitChar (s / 10), digitChar (s % 10)] := pad2_data hs
    have dm1 : m / 10 < 10 := by omega
    have dm2 : m % 10 < 10 := by omega
    have ds1 : s / 10 < 10 := by omega
    have ds2 : s % 10 < 10 := by omega
    have hdm : 10 * (m / 10) + m % 10 = m := Nat.div_add_mod m 10
    have hds : 10 * (s / 10) + s % 10 = s := Nat.div_add_mod s 10
    have hA : (hstr.data = [digitChar hh] ∧ hh < 10)
        ∨ hstr.data = [digitChar (hh / 10), digitChar (hh % 10)] := by
      rcases hg with rfl | rfl
      · rcases Nat.lt_or_ge hh 10 with h10 | h10
        · exact Or.inl ⟨natToDec_data_one h10, h10⟩
        · exact Or.inr (natToDec_data_two h10 hhh)
      · exact Or.inr (pad2_data hhh)
    show (⟨rewriteChars url ("[" ++ hstr ++ ":" ++ pad2 m ++ ":" ++ pad2 s
        ++ "]").data⟩ : String) = _
    rcases hA with ⟨hA1, h10⟩ | hA2
    · have hud : ("[" ++ hstr ++ ":" ++ pad2 m ++ ":" ++ pad2 s ++ "]").data
          = '[' :: digitChar hh :: ':' :: digitChar (m / 10) :: digitChar (m % 10)
              :: ':' :: digitChar (s / 10) :: digitChar (s % 10) :: ']' :: [] := by
        simp [strDataAppend, hA1, hmd, hsd, c1, c2, c3]
      have hts : matchTsAt ('[' :: digitChar hh :: ':' :: digitChar (m / 10)
          :: digitChar (m % 10) :: ':' :: digitChar (s / 10) :: digitChar (s % 10)
          :: ']' :: []) = some (hh, m, some s, []) := by
        simp [matchTsAt, matchG1_one h10, matchG2_two dm1 dm2, matchTail_ext ds1 ds2,
              hdm, hds]
      rw [hud, rewrite_single url _ hh m (some s) hts]
      exact strMkData _
    · have dh1 : hh / 10 < 10 := by omega
      have dh2 : hh % 10 < 10 := by omega
      have hdh : 10 * (hh / 10) + hh % 10 = hh := Nat.div_add_mod hh 10
      have hud : ("[" ++ hstr ++ ":" ++ pad2 m ++ ":" ++ pad2 s ++ "]").data
          = '[' :: digitChar (hh / 10) :: digitChar (hh % 10) :: ':'
              :: digitChar (m / 10) :: digitChar (m % 10) :: ':'
              :: digitChar (s / 10) :: digitChar (s % 10) :: ']' :: [] := by
        simp [strDataAppend, hA2, hmd, hsd, c1, c2, c3]
      have hts : matchTsAt ('[' :: digitChar (hh / 10) :: digitChar (hh % 10) :: ':'
          :: digitChar (m / 10) :: digitChar (m % 10) :: ':' :: digitChar (s / 10)
          :: digitChar (s % 10) :: ']' :: []) = some (hh, m, some s, []) := by
        simp [matchTsAt, matchG1_two dh1 dh2, matchG2_two dm1 dm2,
              matchTail_ext ds1 ds2, hdm, hds, hdh]
      rw [hud, rewrite_single url _ hh m (some s) hts]
      exact strMkData _

/-- Witness for C4 at concrete markers via the general statement. -/
theorem timestamp_rewrite_amended_witness :
    add_youtube_timestamps ("[" ++ natToDec 12 ++ ":" ++ pad2 34 ++ "]") "https://x/y" =
      "[" ++ natToDec 12 ++ ":" ++ pad2 34 ++ "](" ++ "https://x/y" ++ "?t="
        ++ natToDec (12 * 60 + 34) ++ ")"
    ∧ add_youtube_timestamps ("[" ++ natToDec 1 ++ ":" ++ pad2 2 ++ ":" ++ pad2 3 ++ "]")
        "https://x/y" =
      "[" ++ natToDec 1 ++ ":" ++ pad2 2 ++ ":" ++ pad2 3 ++ "](" ++ "https://x/y" ++ "?t="
        ++ natToDec (1 * 3600 + 2 * 60 + 3) ++ ")" :=
  ⟨timestamp_rewrite_amended.1 "https://x/y" (natToDec 12) 12 34 (by decide) (by decide)
     (Or.inl rfl),
   timestamp_rewrite_amended.2.1 "https://x/y" (natToDec 1) 1 2 3 (by decide) (by decide)
     (by decide) (Or.inl rfl)⟩

/-! ### The scan consumes the match: length lemmas -/

theorem matchG1_length : ∀ {cs r : List Char} {v : Nat},
    matchG1 cs = some (v, r) → r.length < cs.length := by
  intro cs r v h
  unfold matchG1 at h
  repeat' split at h
  all_goals simp_all
  all_goals omega

theorem matchG2_length : ∀ {cs r : List Char} {v : Nat},
    matchG2 cs = some (v, r) → r.length < cs.length := by
  intro cs r v h
  unfold matchG2 at h
  repeat' split at h
  all_goals simp_all
  all_goals omega

theorem matchTail_length : ∀ {cs r : List Char} {v : Option Nat},
    matchTail cs = some (v, r) → r.length < cs.length := by
  intro cs r v h
  unfold matchTail at h
  repeat' split at h
  all_goals simp_all
  all_goals omega

theorem matchTsAt_length : ∀ {cs rest : List Char} {g1 g2 : Nat} {g3 : Option Nat},
    matchTsAt cs = some (g1, g2, g3, rest) → rest.length < cs.length := by
  intro cs rest g1 g2 g3 h
  unfold matchTsAt at h
  split at h
  · simp only [bind, Option.bind_eq_some, Option.pure_def, Option.some.injEq] at h
    obtain ⟨⟨v1, r1⟩, h1, ⟨v2, r2⟩, h2, ⟨v3, r3⟩, h3, heq⟩ := h
    have e1 := matchG1_length h1
    have e2 := matchG2_length h2
    have e3 := matchTail_length h3
    obtain ⟨rfl, rfl, rfl, rfl⟩ : v1 = g1 ∧ v2 = g2 ∧ v3 = g3 ∧ r3 = rest := by
      simpa using heq
    simp only [List.length_cons] at *
    omega
  · simp at h

/-- The fuelled scan agrees with the natural-fuel scan whenever the fuel
covers the list. -/
theorem rewriteAux_fuel_eq (url : String) : ∀ (f : Nat) (cs : List Char), cs.length ≤ f →
    rewriteAux url f cs = rewriteChars url cs := by
  intro f
  induction f using Nat.strong_induction_on with
  | _ f ih =>
    intro cs hle
    cases f with
    | zero =>
      cases cs with
      | nil => rfl
      | cons c cs' => simp at hle
    | succ g =>
      cases cs with
      | nil => simp [rewriteAux, rewriteChars]
      | cons c cs' =>
        have hlen : cs'.length + 1 ≤ g + 1 := by simpa using hle
        have hgoalR : rewriteChars url (c :: cs') = rewriteAux url (cs'.length + 1) (c :: cs') := by
          simp [rewriteChars]
        cases hmatch : matchTsAt (c :: cs') with
        | some val =>
          obtain ⟨g1, g2, g3, rest⟩ := val
          have hr : rest.length < cs'.length + 1 := matchTsAt_length hmatch
          have e1 : rewriteAux url g rest = rewriteChars url rest :=
            ih g (by omega) rest (by omega)
          have e2 : rewriteAux url cs'.length rest = rewriteChars url rest :=
            ih cs'.length (by omega) rest (by omega)
          rw [hgoalR]
          simp only [rewriteAux, hmatch]
          rw [e1, e2]
        | none =>
          have e1 : rewriteAux url g cs' = rewriteChars url cs' :=
            ih g (by omega) cs' (by omega)
          have e2 : rewriteAux url cs'.length cs' = rewriteChars url cs' :=
            ih cs'.length (by omega) cs' (by omega)
          rw [hgoalR]
          simp only [rewriteAux, hmatch]
          rw [e1, e2]

/-- Every position where the pattern matches is replaced by exactly the
specified replacement, and the scan resumes after the match. -/
theorem rewriteChars_match_step (url : String) {cs rest : List Char} {g1 g2 : Nat}
    {g3 : Option Nat} (h : matchTsAt cs = some (g1, g2, g3, rest)) :
    rewriteChars url cs = (replaceTimestamp g1 g2 g3 url).data ++ rewriteChars url rest := by
  cases cs with
  | nil => simp [matchTsAt] at h
  | cons c cs' =>
    have hr : rest.length < cs'.length + 1 := matchTsAt_length h
    calc rewriteChars url (c :: cs')
        = rewriteAux url (cs'.length + 1) (c :: cs') := by simp [rewriteChars]
      _ = (replaceTimestamp g1 g2 g3 url).data ++ rewriteAux url cs'.length rest := by
          simp only [rewriteAux, h]
      _ = (replaceTimestamp g1 g2 g3 url).data ++ rewriteChars url rest := by
          rw [rewriteAux_fuel_eq url cs'.length rest (by omega)]

/-- Characters outside every match are preserved verbatim and in
order: a block in which no match starts passes through unchanged. -/
theorem rewriteChars_frame (url : String) : ∀ (l s : List Char),
    (∀ l₁ l₂, l = l₁ ++ l₂ → l₂ ≠ [] → matchTsAt (l₂ ++ s) = none) →
    rewriteChars url (l ++ s) = l ++ rewriteChars url s := by
  intro l
  induction l with
  | nil => intro s _; simp
  | cons c l' ih =>
    intro s h
    have h0 : matchTsAt (c :: (l' ++ s)) = none := by
      have := h [] (c :: l') rfl (by simp)
      simpa using this
    calc rewriteChars url ((c :: l') ++ s)
        = rewriteAux url ((l' ++ s).length + 1) (c :: (l' ++ s)) := by
          simp [rewriteChars]
      _ = c :: rewriteAux url (l' ++ s).length (l' ++ s) := by
          simp only [rewriteAux, h0]
      _ = c :: rewriteChars url (l' ++ s) := by rw [rewriteChars]
      _ = c :: (l' ++ rewriteChars url s) := by
          rw [ih s fun l₁ l₂ hl hne => h (c :: l₁) l₂ (by rw [hl]; rfl) hne]
      _ = (c :: l') ++ rewriteChars url s := rfl

/-- C10: the timestamp rewrite is a pure frame-preserving text
transformation.  With the source link absent (`None`) or empty the notes
are returned completely unchanged; the rewrite is the left-to-right scan
of the embedded pattern; every position where the pattern matches is
replaced by the specified replacement with scanning resuming after the
match; and any block in which no match starts is copied verbatim and in
order. -/
theorem timestamp_rewrite_frame :
    (∀ notes : String, applyTimestampLinks notes none = notes
      ∧ applyTimestampLinks notes (some "") = notes)
    ∧ (∀ (s url : String), (add_youtube_timestamps s url).data = rewriteChars url s.data)
    ∧ (∀ (url : String) (cs rest : List Char) (g1 g2 : Nat) (g3 : Option Nat),
        matchTsAt cs = some (g1, g2, g3, rest) →
        rewriteChars url cs = (replaceTimestamp g1 g2 g3 url).data ++ rewriteChars url rest)
    ∧ (∀ (url : String) (l s : List Char),
        (∀ l₁ l₂, l = l₁ ++ l₂ → l₂ ≠ [] → matchTsAt (l₂ ++ s) = none) →
        rewriteChars url (l ++ s) = l ++ rewriteChars url s) := by
  refine ⟨fun notes => ⟨rfl, rfl⟩, fun s url => rfl, ?_, ?_⟩
  · intro url cs rest g1 g2 g3 h
    exact rewriteChars_match_step url h
  · intro url l s h
    exact rewriteChars_frame url l s h

/-- Witness for C10 at concrete inputs. -/
theorem timestamp_rewrite_frame_witness :
    applyTimestampLinks "abc [1:02]" none = "abc [1:02]"
    ∧ rewriteChars "u" ("[1:02]x".data) =
        (replaceTimestamp 1 2 none "u").data ++ rewriteChars "u" ['x']
    ∧ rewriteChars "u" (([] : List Char) ++ "[1:02]".data) =
        [] ++ rewriteChars "u" ("[1:02]".data) :=
  ⟨(timestamp_rewrite_frame.1 "abc [1:02]").1,
   timestamp_rewrite_frame.2.2.1 "u" "[1:02]x".data ['x'] 1 2 none (by decide),
   timestamp_rewrite_frame.2.2.2 "u" [] "[1:02]".data
     (fun _ _ hl hne => absurd (List.append_eq_nil.mp hl.symm).2 hne)⟩

/-! ### General correctness of the decimal rendering -/

/-- Master lemma about the digit-accumulator loop: it produces a block
of digit characters whose value is `n`, in front of the accumulator. -/
theorem natToDecAux_spec : ∀ (n : Nat), ∀ (fuel : Nat) (acc : List Char), n ≤ fuel →
    ∃ ds : List Char, natToDecAux fuel n acc = ds ++ acc
      ∧ (∀ c ∈ ds, ∃ d, d < 10 ∧ c = digitChar d)
      ∧ (n = 0 → ds = [])
      ∧ (n ≠ 0 → ds ≠ [])
      ∧ ∀ a : Nat, List.foldl (fun x c => 10 * x + digitVal c) a ds
          = a * 10 ^ ds.length + n := by
  intro n
  induction n using Nat.strong_induction_on with
  | _ n ih =>
    intro fuel acc hle
    rcases Nat.eq_zero_or_pos n with rfl | hpos
    · refine ⟨[], ?_, by simp, fun _ => rfl, fun h => absurd rfl h, by simp⟩
      cases fuel <;> simp [natToDecAux]
    · obtain ⟨f, rfl⟩ : ∃ f, fuel = f + 1 := ⟨fuel - 1, by omega⟩
      have hne : n ≠ 0 := by omega
      have hstep : natToDecAux (f + 1) n acc
          = natToDecAux f (n / 10) (digitChar (n % 10) :: acc) := by
        simp [natToDecAux, hne]
      have hlt : n / 10 < n := Nat.div_lt_self hpos (by norm_num)
      have hmod : n % 10 < 10 := Nat.mod_lt _ (by norm_num)
      obtain ⟨ds', hds', hdig', _, _, hval'⟩ :=
        ih (n / 10) hlt f (digitChar (n % 10) :: acc) (by omega)
      refine ⟨ds' ++ [digitChar (n % 10)], ?_, ?_, fun h => absurd h hne, by simp, ?_⟩
      · rw [hstep, hds']
        simp
      · intro c hc
        rcases List.mem_append.mp hc with h1 | h2
        · exact hdig' c h1
        · simp at h2
          exact ⟨n % 10, hmod, h2⟩
      · intro a
        have hX : (10 : Nat) ^ (ds'.length + 1) = 10 ^ ds'.length * 10 := pow_succ 10 _
        calc List.foldl (fun x c => 10 * x + digitVal c) a (ds' ++ [digitChar (n % 10)])
            = 10 * (a * 10 ^ ds'.length + n / 10) + digitVal (digitChar (n % 10)) := by
              rw [List.foldl_append, hval' a]
              rfl
          _ = 10 * (a * 10 ^ ds'.length + n / 10) + n % 10 := by
              rw [digitVal_digitChar hmod]
          _ = a * (10 ^ ds'.length * 10) + (10 * (n / 10) + n % 10) := by ring
          _ = a * 10 ^ (ds' ++ [digitChar (n % 10)]).length + n := by
              rw [Nat.div_add_mod]
              simp [hX]

/-- Every character of the decimal rendering is a digit character. -/
theorem natToDec_digitChars (n : Nat) :
    ∀ c ∈ (natToDec n).data, ∃ d, d < 10 ∧ c = digitChar d := by
  unfold natToDec
  split
  · intro c hc
    simp at hc
    exact ⟨0, by norm_num, by rw [hc]; rfl⟩
  · obtain ⟨ds, hds, hdig, _, _, _⟩ := natToDecAux_spec n n [] (le_refl n)
    intro c hc
    have : (⟨natToDecAux n n []⟩ : String).data = natToDecAux n n [] := rfl
    rw [this, hds] at hc
    simp at hc
    exact hdig c hc

theorem natToDec_data_ne_nil (n : Nat) : (natToDec n).data ≠ [] := by
  unfold natToDec
  split
  · simp
  · obtain ⟨ds, hds, _, _, hnn, _⟩ := natToDecAux_spec n n [] (le_refl n)
    have : (⟨natToDecAux n n []⟩ : String).data = natToDecAux n n [] := rfl
    rw [this, hds]
    simpa using hnn (by assumption)

/-- Reading the decimal rendering back yields the same number. -/
theorem digitsToNat_natToDec (n : Nat) : digitsToNat (natToDec n).data = n := by
  unfold natToDec digitsToNat
  split
  next h => simp [h]; rfl
  next h =>
    obtain ⟨ds, hds, _, _, _, hval⟩ := natToDecAux_spec n n [] (le_refl n)
    have hdata : (⟨natToDecAux n n []⟩ : String).data = natToDecAux n n [] := rfl
    rw [hdata, hds]
    simpa using hval 0

theorem digitsToNat_pad2 {m : Nat} (h : m < 100) : digitsToNat (pad2 m).data = m := by
  rw [pad2_data h]
  have d1 : m / 10 < 10 := by omega
  have d2 : m % 10 < 10 := by omega
  simp [digitsToNat, digitVal_digitChar d1, digitVal_digitChar d2]
  omega

theorem pad2_data_length {m : Nat} (h : m < 100) : (pad2 m).data.length = 2 := by
  rw [pad2_data h]
  rfl

/-- Facts about digit characters used by the line grammar. -/
theorem digitChar_line_facts {d : Nat} (h : d < 10) :
    (digitChar d).isDigit = true ∧ isPySpace (digitChar d) = false
      ∧ digitChar d ≠ '\n' := by
  interval_cases d <;> exact ⟨rfl, rfl, by decide⟩

/-! ### takeWhile and dropWhile helpers -/

theorem takeWhile_append_stop {p : Char → Bool} {l : List Char} {x : Char} (r : List Char)
    (hl : ∀ c ∈ l, p c = true) (hx : p x = false) :
    (l ++ x :: r).takeWhile p = l ∧ (l ++ x :: r).dropWhile p = x :: r := by
  induction l with
  | nil => simp [List.takeWhile_cons, List.dropWhile_cons, hx]
  | cons a l' ih =>
    have ha := hl a (by simp)
    obtain ⟨ih1, ih2⟩ := ih fun c hc => hl c (List.mem_cons_of_mem a hc)
    simp [List.takeWhile_cons, List.dropWhile_cons, ha, ih1, ih2]

theorem dropWhile_idem (p : Char → Bool) (l : List Char) :
    (l.dropWhile p).dropWhile p = l.dropWhile p := by
  induction l with
  | nil => rfl
  | cons a l' ih =>
    by_cases hpa : p a = true
    · simp [List.dropWhile_cons, hpa, ih]
    · simp [List.dropWhile_cons, hpa]

theorem pyStrip_dropWhile (l : List Char) :
    pyStrip (l.dropWhile isPySpace) = pyStrip l := by
  unfold pyStrip
  rw [dropWhile_idem]

theorem drop_takeWhile_length (p : Char → Bool) (l : List Char) :
    l.drop (l.takeWhile p).length = l.dropWhile p := by
  induction l with
  | nil => rfl
  | cons a l' ih =>
    by_cases hpa : p a = true
    · simp [List.takeWhile_cons, List.dropWhile_cons, hpa, ih]
    · simp [List.takeWhile_cons, List.dropWhile_cons, hpa]

theorem dropWhile_head_false {p : Char → Bool} {l : List Char} {d : Char} {ds : List Char}
    (h : l.dropWhile p = d :: ds) : p d = false := by
  induction l with
  | nil => simp at h
  | cons a l' ih =>
    by_cases hpa : p a = true
    · rw [List.dropWhile_cons, if_pos hpa] at h
      exact ih h
    · rw [List.dropWhile_cons, if_neg hpa] at h
      obtain ⟨rfl, -⟩ : a = d ∧ l' = ds := by simpa using h
      simpa using hpa

theorem takeWhile_of_all {p : Char → Bool} {l : List Char}
    (h : ∀ c ∈ l, p c = true) : l.takeWhile p = l := by
  induction l with
  | nil => rfl
  | cons a l' ih =>
    simp [List.takeWhile_cons, h a (by simp),
          ih fun c hc => h c (List.mem_cons_of_mem a hc)]

theorem dropWhile_eq_nil_all {p : Char → Bool} {l : List Char}
    (h : l.dropWhile p = []) : ∀ c ∈ l, p c = true := by
  induction l with
  | nil => simp
  | cons a l' ih =>
    by_cases hpa : p a = true
    · rw [List.dropWhile_cons, if_pos hpa] at h
      intro c hc
      rcases List.mem_cons.mp hc with rfl | hc'
      · exact hpa
      · exact ih h c hc'
    · rw [List.dropWhile_cons, if_neg hpa] at h
      simp at h

theorem all_dropWhile_nil {p : Char → Bool} {l : List Char}
    (h : ∀ c ∈ l, p c = true) : l.dropWhile p = [] := by
  induction l with
  | nil => rfl
  | cons a l' ih =>
    simp [List.dropWhile_cons, h a (by simp),
          ih fun c hc => h c (List.mem_cons_of_mem a hc)]

theorem pyStrip_all_ws {l : List Char} (h : ∀ c ∈ l, isPySpace c = true) :
    pyStrip l = [] := by
  unfold pyStrip
  rw [all_dropWhile_nil h]
  rfl

theorem mem_takeWhile {p : Char → Bool} {l : List Char} {c : Char}
    (h : c ∈ l.takeWhile p) : c ∈ l := by
  induction l with
  | nil => simp at h
  | cons a l' ih =>
    rw [List.takeWhile_cons] at h
    by_cases hpa : p a = true
    · rw [if_pos hpa] at h
      rcases List.mem_cons.mp h with rfl | h'
      · simp
      · exact List.mem_cons_of_mem a (ih h')
    · rw [if_neg hpa] at h
      simp at h

theorem mem_dropWhile {p : Char → Bool} {l : List Char} {c : Char}
    (h : c ∈ l.dropWhile p) : c ∈ l := by
  induction l with
  | nil => simp at h
  | cons a l' ih =>
    rw [List.dropWhile_cons] at h
    by_cases hpa : p a = true
    · rw [if_pos hpa] at h
      exact List.mem_cons_of_mem a (ih h)
    · rw [if_neg hpa] at h
      exact h

/-! ### The numeric group on a canonically formatted time -/

theorem centiVal (c : Nat) :
    ((c / 100 : Nat) : ℚ) + ((c % 100 : Nat) : ℚ) / (10 : ℚ) ^ 2 = (c : ℚ) / 100 := by
  have h : (100 : ℚ) * ((c / 100 : Nat) : ℚ) + ((c % 100 : Nat) : ℚ) = (c : ℚ) := by
    have := Nat.div_add_mod c 100
    exact_mod_cast congrArg (fun n : Nat => (n : ℚ)) this
  have h2 : ((10 : ℚ) ^ 2) = 100 := by norm_num
  rw [h2]
  field_simp
  linarith

theorem matchNumber_fmt2 (c : Nat) (rest : List Char) :
    matchNumber ((fmt2 c).data ++ 's' :: rest) = some ((c : ℚ) / 100, 's' :: rest) := by
  have hdot : (("." : String)).data = ['.'] := rfl
  have hBlt : c % 100 < 100 := Nat.mod_lt _ (by norm_num)
  have hB := pad2_data hBlt
  have hAdig : ∀ x ∈ (natToDec (c / 100)).data, x.isDigit = true := fun x hx => by
    obtain ⟨d, hd, rfl⟩ := natToDec_digitChars (c / 100) x hx
    exact (digitChar_line_facts hd).1
  have hBdig : ∀ x ∈ (pad2 (c % 100)).data, x.isDigit = true := by
    rw [hB]
    intro x hx
    simp at hx
    rcases hx with rfl | rfl
    · exact (digitChar_line_facts (by omega)).1
    · exact (digitChar_line_facts (by omega)).1
  have hdata : (fmt2 c).data ++ 's' :: rest
      = (natToDec (c / 100)).data ++ '.' :: ((pad2 (c % 100)).data ++ 's' :: rest) := by
    unfold fmt2
    simp [strDataAppend, hdot]
  have hstop1 : (('.' : Char).isDigit) = false := by decide
  have hstop2 : (('s' : Char).isDigit) = false := by decide
  obtain ⟨ht1, hd1⟩ :=
    takeWhile_append_stop (r := (pad2 (c % 100)).data ++ 's' :: rest) hAdig hstop1
  obtain ⟨ht2, hd2⟩ := takeWhile_append_stop (r := rest) hBdig hstop2
  rw [hdata]
  unfold matchNumber
  simp only [ht1, hd1, ht2, hd2]
  have hne : (natToDec (c / 100)).data.isEmpty = false := by
    cases hl : (natToDec (c / 100)).data with
    | nil => exact absurd hl (natToDec_data_ne_nil _)
    | cons x xs => rfl
  simp only [hne]
  simp [digitsToNat_natToDec, digitsToNat_pad2 hBlt, pad2_data_length hBlt, centiVal]

theorem fmt2_head (c : Nat) :
    ∃ d : Nat, d < 10 ∧ ∃ tl, (fmt2 c).data = digitChar d :: tl := by
  unfold fmt2
  cases hl : (natToDec (c / 100)).data with
  | nil => exact absurd hl (natToDec_data_ne_nil _)
  | cons x xs =>
    obtain ⟨d, hd, rfl⟩ := natToDec_digitChars (c / 100) x (by rw [hl]; simp)
    refine ⟨d, hd, xs ++ ('.' :: (pad2 (c % 100)).data), ?_⟩
    simp [strDataAppend, hl]

theorem dropWhile_cons_false {p : Char → Bool} {x : Char} {xs : List Char}
    (h : p x = false) : (x :: xs).dropWhile p = x :: xs := by
  simp [List.dropWhile_cons, h]

theorem takeWhile_length_le (p : Char → Bool) (l : List Char) :
    (l.takeWhile p).length ≤ l.length := by
  induction l with
  | nil => simp
  | cons a l' ih =>
    by_cases hpa : p a = true
    · simp [List.takeWhile_cons, hpa]
      omega
    · simp [List.takeWhile_cons, hpa]

/-! ### The trailing text group -/

/-- In an all-whitespace newline-free remainder the backtracking text
group still succeeds, capturing only whitespace. -/
theorem textGroupAux_allws : ∀ (k : Nat) (r9 : List Char), r9 ≠ [] →
    (∀ c ∈ r9, isPySpace c = true ∧ ¬(c = '\n')) → k ≤ r9.length →
    ∃ g, textGroupAux r9 k = some g ∧ ∀ c ∈ g, isPySpace c = true := by
  intro k
  induction k with
  | zero =>
    intro r9 hne hall _
    cases r9 with
    | nil => exact absurd rfl hne
    | cons c rest =>
      have hc := hall c (by simp)
      have hcne : (c == '\n') = false := by simpa using hc.2
      refine ⟨(c :: rest).takeWhile (fun x => !(x == '\n')),
        by simp [textGroupAux, hcne], ?_⟩
      intro x hx
      exact (hall x (mem_takeWhile hx)).1
  | succ k ih =>
    intro r9 hne hall hle
    cases hdrop : r9.drop (k + 1) with
    | nil =>
      have hlen : r9.length ≤ k + 1 := by
        have := List.length_drop (k + 1) r9
        rw [hdrop] at this
        simp at this
        omega
      obtain ⟨g, hg, hgall⟩ := ih r9 hne hall (by omega)
      exact ⟨g, by simp [textGroupAux, hdrop, hg], hgall⟩
    | cons c rest =>
      have hcmem : c ∈ r9 := by
        have : c ∈ r9.drop (k + 1) := by rw [hdrop]; simp
        exact List.mem_of_mem_drop this
      have hcne : (c == '\n') = false := by simpa using (hall c hcmem).2
      refine ⟨(c :: rest).takeWhile (fun x => !(x == '\n')),
        by simp [textGroupAux, hdrop, hcne], ?_⟩
      intro x hx
      have hxmem : x ∈ c :: rest := mem_takeWhile hx
      have : x ∈ r9 := by
        rw [← hdrop] at hxmem
        exact List.mem_of_mem_drop hxmem
      exact (hall x this).1

/-- On the canonical remainder (one literal space then the segment
text, newline-free) the text group succeeds and strips to the stripped
text. -/
theorem matchTextGroup_strip (t : List Char) (hn : '\n' ∉ t) :
    ∃ g, matchTextGroup (' ' :: t) = some g ∧ pyStrip g = pyStrip t := by
  have hsp : isPySpace ' ' = true := by decide
  have htw : ((' ' :: t).takeWhile isPySpace) = ' ' :: t.takeWhile isPySpace := by
    simp [List.takeWhile_cons, hsp]
  cases hdw : t.dropWhile isPySpace with
  | cons d ds =>
    have hd : isPySpace d = false := dropWhile_head_false hdw
    have hdne : (d == '\n') = false := by
      have : d ≠ '\n' := by
        intro he
        rw [he] at hd
        simp [isPySpace] at hd
      simpa using this
    have htt : t.drop (t.takeWhile isPySpace).length = d :: ds := by
      rw [drop_takeWhile_length, hdw]
    refine ⟨(d :: ds).takeWhile (fun x => !(x == '\n')), ?_, ?_⟩
    · unfold matchTextGroup
      rw [htw]
      simp only [List.length_cons, textGroupAux, List.drop_succ_cons, htt, hdne]
      simp
    · have hsub : ∀ x ∈ d :: ds, (!(x == '\n')) = true := by
        intro x hx
        have hxt : x ∈ t := by
          rw [← hdw] at hx
          exact mem_dropWhile hx
        have : x ≠ '\n' := fun he => hn (he ▸ hxt)
        simpa using this
      rw [takeWhile_of_all hsub, ← hdw, pyStrip_dropWhile]
  | nil =>
    have hallt : ∀ c ∈ t, isPySpace c = true := dropWhile_eq_nil_all hdw
    have hall : ∀ c ∈ ' ' :: t, isPySpace c = true ∧ ¬(c = '\n') := by
      intro c hc
      rcases List.mem_cons.mp hc with rfl | hct
      · exact ⟨hsp, by decide⟩
      · exact ⟨hallt c hct, fun he => hn (he ▸ hct)⟩
    obtain ⟨g, hg, hgws⟩ := textGroupAux_allws ((' ' :: t).takeWhile isPySpace).length
      (' ' :: t) (by simp) hall (takeWhile_length_le _ _)
    exact ⟨g, hg, by rw [pyStrip_all_ws hgws, pyStrip_all_ws hallt]⟩

/-- Parsing one canonically serialized line recovers the two times and
the stripped text. -/
theorem parseLine_serialize (a b : Nat) (t : String) (hn : '\n' ∉ t.data) :
    parseLineChars (serializeSegment a b t).data
      = some ((a : ℚ) / 100, (b : ℚ) / 100, pyStripStr t) := by
  have hsp : isPySpace ' ' = true := by decide
  have hdash : isPySpace '-' = false := by decide
  have hdata : (serializeSegment a b t).data
      = '[' :: ((fmt2 a).data ++ 's' :: ' ' :: '-' :: '>' :: ' '
          :: ((fmt2 b).data ++ 's' :: ']' :: ' ' :: t.data)) := by
    unfold serializeSegment
    have e1 : ("[" : String).data = ['['] := rfl
    have e2 : ("s -> " : String).data = ['s', ' ', '-', '>', ' '] := rfl
    have e3 : ("s] " : String).data = ['s', ']', ' '] := rfl
    simp [strDataAppend, e1, e2, e3]
  obtain ⟨d, hd, tl, htl⟩ := fmt2_head b
  have hdws : isPySpace (digitChar d) = false := (digitChar_line_facts hd).2.1
  have hdropB : ((fmt2 b).data ++ 's' :: ']' :: ' ' :: t.data).dropWhile isPySpace
      = (fmt2 b).data ++ 's' :: ']' :: ' ' :: t.data := by
    rw [htl]
    exact dropWhile_cons_false hdws
  obtain ⟨g, hg, hstrip⟩ := matchTextGroup_strip t.data hn
  rw [hdata]
  simp only [parseLineChars]
  rw [matchNumber_fmt2 a]
  simp [expectChar, matchArrow, List.dropWhile_cons, hsp, hdash, hdropB,
        matchNumber_fmt2 b, hg, pyStripStr, hstrip]

/-! ### Serialized lines are newline-free, and splitting inverts joining -/

theorem fmt2_no_newline (c : Nat) : '\n' ∉ (fmt2 c).data := by
  unfold fmt2
  intro hmem
  simp only [strDataAppend, List.mem_append] at hmem
  rcases hmem with (ha | hdot) | h2
  · obtain ⟨d, hd, he⟩ := natToDec_digitChars (c / 100) '\n' ha
    exact (digitChar_line_facts hd).2.2 he.symm
  · exact absurd hdot (by decide)
  · have hlt : c % 100 < 100 := Nat.mod_lt _ (by norm_num)
    rw [pad2_data hlt] at h2
    simp at h2
    rcases h2 with he | he
    · exact (digitChar_line_facts (show c % 100 / 10 < 10 by omega)).2.2 he.symm
    · exact (digitChar_line_facts (show c % 100 % 10 < 10 by omega)).2.2 he.symm

theorem serializeSegment_no_newline (a b : Nat) (t : String) (hn : '\n' ∉ t.data) :
    '\n' ∉ (serializeSegment a b t).data := by
  unfold serializeSegment
  intro hmem
  simp only [strDataAppend, List.mem_append] at hmem
  rcases hmem with ((((h | h) | h) | h) | h) | h
  · exact absurd h (by decide)
  · exact fmt2_no_newline a h
  · exact absurd h (by decide)
  · exact fmt2_no_newline b h
  · exact absurd h (by decide)
  · exact hn h

theorem splitOnChar_no_sep {sep : Char} : ∀ {l : List Char}, sep ∉ l →
    splitOnChar sep l = [l] := by
  intro l
  induction l with
  | nil => intro _; rfl
  | cons c cs ih =>
    intro h
    have hcne : (c == sep) = false := by
      simpa using fun he => h (by rw [he]; simp)
    have := ih fun hm => h (List.mem_cons_of_mem c hm)
    simp [splitOnChar, hcne, this]

theorem splitOnChar_append {sep : Char} : ∀ {l : List Char} (rest : List Char), sep ∉ l →
    splitOnChar sep (l ++ sep :: rest) = l :: splitOnChar sep rest := by
  intro l
  induction l with
  | nil => intro rest _; simp [splitOnChar]
  | cons c cs ih =>
    intro rest h
    have hcne : (c == sep) = false := by
      simpa using fun he => h (by rw [he]; simp)
    have hrec := ih rest fun hm => h (List.mem_cons_of_mem c hm)
    simp [splitOnChar, hcne, hrec]

theorem splitOnChar_joinSep {sep : Char} : ∀ {ls : List (List Char)}, ls ≠ [] →
    (∀ l ∈ ls, sep ∉ l) → splitOnChar sep (joinSep sep ls) = ls := by
  intro ls
  induction ls with
  | nil => intro h; exact absurd rfl h
  | cons l ls' ih =>
    intro _ hall
    cases ls' with
    | nil => exact splitOnChar_no_sep (hall l (by simp))
    | cons l₂ ls'' =>
      have hjoin : joinSep sep (l :: l₂ :: ls'') = l ++ sep :: joinSep sep (l₂ :: ls'') := rfl
      rw [hjoin, splitOnChar_append _ (hall l (by simp)),
          ih (by simp) fun x hx => hall x (List.mem_cons_of_mem l hx)]

theorem filterMap_eq_map_of_some {α β : Type} {f : α → Option β} {g : α → β} :
    ∀ {l : List α}, (∀ x ∈ l, f x = some (g x)) → l.filterMap f = l.map g := by
  intro l
  induction l with
  | nil => intro _; rfl
  | cons a l' ih =>
    intro h
    rw [List.filterMap_cons, h a (by simp), List.map_cons,
        ih fun x hx => h x (List.mem_cons_of_mem a hx)]

/-- C5 (counterexample): a segment whose text contains an interior
newline does not round-trip: its serialization splits into two lines, the
second is dropped by the parse grammar, and the recovered text is not the
original text even up to surrounding whitespace. -/
theorem roundtrip_claim_false :
    (parseTranscription (serializeTranscript [(0, 100, "a\nb")])).map (fun g => g.2.2) ≠
      [pyStripStr "a\nb"] := by
  decide

/-- C5 (amended): for every ordered sequence of segments whose texts
contain no newline (times carried as exact hundredths of a second), every
line Transcribe serializes matches the Synthesize parse grammar, and
parsing the serialized transcript recovers the same ordered sequence of
(start, end, text) triples — times exactly, text up to surrounding
whitespace. -/
theorem transcript_roundtrip_amended : ∀ segs : List (Nat × Nat × String),
    (∀ g ∈ segs, '\n' ∉ g.2.2.data) →
    parseTranscription (serializeTranscript segs) =
      segs.map fun g => ((g.1 : ℚ) / 100, (g.2.1 : ℚ) / 100, pyStripStr g.2.2) := by
  intro segs hfree
  cases hsegs : segs with
  | nil => rfl
  | cons s0 rest =>
    have hlines : ∀ l ∈ (s0 :: rest).map (fun g => (serializeSegment g.1 g.2.1 g.2.2).data),
        '\n' ∉ l := by
      intro l hl
      simp only [List.mem_map] at hl
      obtain ⟨gseg, hgm, rfl⟩ := hl
      exact serializeSegment_no_newline gseg.1 gseg.2.1 gseg.2.2
        (hfree gseg (by rw [hsegs]; exact hgm))
    show (splitOnChar '\n'
        (⟨joinSep '\n' ((s0 :: rest).map fun g => (serializeSegment g.1 g.2.1 g.2.2).data)⟩
          : String).data).filterMap parseLineChars = _
    have hmk : (⟨joinSep '\n' ((s0 :: rest).map fun g =>
        (serializeSegment g.1 g.2.1 g.2.2).data)⟩ : String).data
        = joinSep '\n' ((s0 :: rest).map fun g => (serializeSegment g.1 g.2.1 g.2.2).data) := rfl
    rw [hmk, splitOnChar_joinSep (by simp) hlines, List.filterMap_map]
    exact filterMap_eq_map_of_some fun gseg hgm =>
      parseLine_serialize gseg.1 gseg.2.1 gseg.2.2
        (hfree gseg (by rw [hsegs]; exact hgm))

/-- Witness for C5 at a concrete two-segment transcript. -/
theorem transcript_roundtrip_amended_witness :
    parseTranscription (serializeTranscript [(0, 100, "hello"), (150, 1234, " hi ")]) =
      [(0, 100, "hello"), (150, 1234, " hi ")].map
        (fun g => ((g.1 : ℚ) / 100, (g.2.1 : ℚ) / 100, pyStripStr g.2.2)) :=
  transcript_roundtrip_amended [(0, 100, "hello"), (150, 1234, " hi ")] (by decide)

end AudioPipeline
